import Mathlib

set_option maxRecDepth 100000

/-!
Verification development for the FireDet repository (src/main.cpp).

The program is a per-frame fire/smoke detection loop built on OpenCV.
We give a shallow embedding: images (`cv::Mat`) become `GMat α`
(a list of rows), the OpenCV primitives the program calls become
executable Lean functions over `GMat`, and the body of the `while`
loop in `main` becomes the state-transition function `processFrame`.
Library calls that can fail (throw a `cv::Exception`, e.g. `cvtColor`
on an empty image or `absdiff` on mismatched sizes) are modelled as
`Option`-valued functions, `none` standing for the thrown error.
-/

/-- One BGR pixel: three 8-bit channels, in OpenCV's (blue, green, red)
channel order.  An HSV pixel reuses the same triple in (H, S, V) order. -/
abbrev Pix3 : Type := Nat × Nat × Nat

/-- A `cv::Mat` of element type `α`: a list of rows.  The mats the program
builds are rectangular; dimensions are read as
(number of rows, length of the first row), matching `Mat::rows`/`Mat::cols`. -/
structure GMat (α : Type) where
  rows : List (List α)
deriving DecidableEq, Repr

/-- `Mat::rows`. -/
def rowsN {α : Type} (m : GMat α) : Nat := m.rows.length

/-- `Mat::cols` (length of the first row; 0 for a rowless mat). -/
def colsN {α : Type} (m : GMat α) : Nat := (m.rows.headD []).length

/-- The (rows, cols) pair of a mat. -/
def matDims {α : Type} (m : GMat α) : Nat × Nat := (rowsN m, colsN m)

/-- `Mat::empty()`: true iff `total() == rows*cols == 0`. -/
def matEmpty {α : Type} (m : GMat α) : Bool := rowsN m == 0 || colsN m == 0

/-- The default-constructed `cv::Mat()` viewed as a single-channel mask. -/
def emptyMask : GMat Nat := ⟨[]⟩

/-- The default-constructed `cv::Mat()` viewed as a 3-channel frame
(this is the initial value of `prevFrame` in `main`, line 90). -/
def emptyFrame : GMat Pix3 := ⟨[]⟩

/-- Pixel read with out-of-range default 0 (only used at in-range indices). -/
def getPx {α : Type} [Inhabited α] (m : GMat α) (i j : Nat) : α :=
  (m.rows.getD i []).getD j default

/-- Apply a function to every pixel (shape-preserving). -/
def pixelMap {α β : Type} (f : α → β) (m : GMat α) : GMat β :=
  ⟨m.rows.map (fun row => row.map f)⟩

/-- Combine two mats pixelwise (callers guard that the dimensions agree). -/
def zipPix {α β γ : Type} (f : α → β → γ) (a : GMat α) (b : GMat β) : GMat γ :=
  ⟨List.zipWith (fun ra rb => List.zipWith f ra rb) a.rows b.rows⟩

/-- Build an `h × w` mat from an index function. -/
def matOfFn {α : Type} (h w : Nat) (f : Nat → Nat → α) : GMat α :=
  ⟨(List.range h).map fun i => (List.range w).map fun j => f i j⟩

/-- `cv::cvtColor(_, _, COLOR_BGR2GRAY)` on one pixel: OpenCV's fixed-point
formula `(B*1868 + G*9617 + R*4899 + 8192) >> 14` for
`Y = 0.114 B + 0.587 G + 0.299 R`. -/
def grayOfBGR (p : Pix3) : Nat :=
  (1868 * p.1 + 9617 * p.2.1 + 4899 * p.2.2 + 8192) / 16384

/-- `cv::cvtColor(_, _, COLOR_BGR2HSV)` on one 8-bit pixel, per the
documented formulas: `V = max(B,G,R)`, `S = round(255 (V - min)/V)` (0 when
`V = 0`), hue in degrees halved into `0..180` (0 when the channel spread is
0).  Integer rounding stands in for the library's fixed-point tables. -/
def hsvOfBGR (p : Pix3) : Pix3 :=
  let b := p.1
  let g := p.2.1
  let r := p.2.2
  let v := max b (max g r)
  let mn := min b (min g r)
  let d := v - mn
  let s := if v = 0 then 0 else (2 * 255 * d + v) / (2 * v)
  let h :=
    if d = 0 then 0
    else
      let hd : Int :=
        if v = r then (60 * ((g : Int) - (b : Int))) / (d : Int)
        else if v = g then 120 + (60 * ((b : Int) - (r : Int))) / (d : Int)
        else 240 + (60 * ((r : Int) - (g : Int))) / (d : Int)
      let hd2 : Int := if hd < 0 then hd + 360 else hd
      (hd2 / 2).toNat
  (h, s, v)

/-- `cv::cvtColor(frame, hsv, COLOR_BGR2HSV)` (lines 10 and 47): rejects an
empty input (`CV_Assert(!_src.empty())` inside `cvtColor`). -/
def cvtColorBGR2HSV (m : GMat Pix3) : Option (GMat Pix3) :=
  if matEmpty m then none else some (pixelMap hsvOfBGR m)

/-- `cv::cvtColor(frame, gray, COLOR_BGR2GRAY)` (lines 17, 38, 39):
rejects an empty input. -/
def cvtColorBGR2GRAY (m : GMat Pix3) : Option (GMat Nat) :=
  if matEmpty m then none else some (pixelMap grayOfBGR m)

/-- `cv::cvtColor(potentialFire, fireVisualization, COLOR_GRAY2BGR)`
(line 151): replicates the channel; rejects an empty input. -/
def cvtColorGRAY2BGR (m : GMat Nat) : Option (GMat Pix3) :=
  if matEmpty m then none else some (pixelMap (fun v => (v, v, v)) m)

/-- `cv::inRange(src, lo, hi, dst)` (lines 13 and 48): 255 where every
channel lies in the closed range, else 0. -/
def inRangeM (lo hi : Pix3) (m : GMat Pix3) : GMat Nat :=
  pixelMap (fun p =>
    if lo.1 ≤ p.1 ∧ p.1 ≤ hi.1 ∧ lo.2.1 ≤ p.2.1 ∧ p.2.1 ≤ hi.2.1 ∧
       lo.2.2 ≤ p.2.2 ∧ p.2.2 ≤ hi.2.2 then 255 else 0) m

/-- `cv::threshold(src, dst, t, 255, THRESH_BINARY)` (lines 18 and 43):
255 where the pixel strictly exceeds `t`, else 0. -/
def thresholdBin (t : Nat) (m : GMat Nat) : GMat Nat :=
  pixelMap (fun v => if t < v then 255 else 0) m

/-- `cv::bitwise_and(a, b, dst)` (lines 21 and 51): pixelwise bit-and; the
library asserts that the two sizes agree (`none` models the thrown error). -/
def bitwiseAndM (a b : GMat Nat) : Option (GMat Nat) :=
  if matDims a = matDims b then some (zipPix Nat.land a b) else none

/-- Absolute difference of two bytes. -/
def adiff (x y : Nat) : Nat := max x y - min x y

/-- `cv::absdiff(a, b, dst)` (line 42): pixelwise `|a - b|` when the sizes
agree.  When they differ the library accepts a 1×1 operand as a scalar and
broadcasts it; any other mismatch raises `StsUnmatchedSizes`, modelled as
`none`.  (The library also broadcasts a few other ≤4-element shapes with a
unit dimension; those shapes are never considered by the theorems below and
are not modelled.) -/
def absdiffM (a b : GMat Nat) : Option (GMat Nat) :=
  if matDims a = matDims b then some (zipPix adiff a b)
  else if matDims b = (1, 1) then some (pixelMap (fun v => adiff v (getPx b 0 0)) a)
  else if matDims a = (1, 1) then some (pixelMap (fun v => adiff (getPx a 0 0) v) b)
  else none

/-- One channel of `cv::addWeighted(a, 0.7, b, 0.3, 0, dst)` (line 152):
round-to-nearest of `0.7 a + 0.3 b` (the result never exceeds 255, so the
saturating cast is the identity here). -/
def blend8 (a b : Nat) : Nat := (7 * a + 3 * b + 5) / 10

/-- `cv::addWeighted(frame, 0.7, fireVisualization, 0.3, 0, frame)`
(line 152); the library asserts that the two sizes agree. -/
def addWeightedM (a b : GMat Pix3) : Option (GMat Pix3) :=
  if matDims a = matDims b then
    some (zipPix (fun p q => (blend8 p.1 q.1, blend8 p.2.1 q.2.1, blend8 p.2.2 q.2.2)) a b)
  else none

/-- `cv::getStructuringElement(MORPH_ELLIPSE, Size(5, 5))` (line 24):
the 5×5 elliptical structuring element the library generates. -/
def kernel5 : List (List Bool) :=
  [[false, false, true, false, false],
   [true, true, true, true, true],
   [true, true, true, true, true],
   [true, true, true, true, true],
   [false, false, true, false, false]]

/-- `cv::getStructuringElement(MORPH_ELLIPSE, Size(10, 10))` (line 54):
the 10×10 elliptical structuring element the library generates
(anchor at (5,5); row `i` covers columns `5 - dx .. 5 + dx` with
`dx = round (sqrt (25 - (i - 5)^2))`, clipped to the mat). -/
def kernel10 : List (List Bool) :=
  let row : Nat → Nat → List Bool := fun j1 j2 =>
    (List.range 10).map fun j => decide (j1 ≤ j ∧ j ≤ j2)
  [row 5 5, row 2 8, row 1 9, row 0 9, row 0 9,
   row 0 9, row 0 9, row 0 9, row 1 9, row 2 8]

/-- The list of (row, col) offsets at which a structuring element is set. -/
def kernelOffsets (ker : List (List Bool)) : List (Nat × Nat) :=
  (ker.enum.map (fun rowp =>
    rowp.2.enum.filterMap (fun cp => if cp.2 then some (rowp.1, cp.1) else none))).flatten

/-- `cv::erode` with structuring element `ker` anchored at `(ai, aj)`:
minimum of the source over the set kernel cells; out-of-image cells take the
morphological border value (+∞, i.e. they do not constrain the minimum). -/
def erodeM (ker : List (List Bool)) (ai aj : Nat) (m : GMat Nat) : GMat Nat :=
  matOfFn (rowsN m) (colsN m) fun i j =>
    (kernelOffsets ker).foldl
      (fun acc kij =>
        if ai ≤ i + kij.1 ∧ i + kij.1 < rowsN m + ai ∧
           aj ≤ j + kij.2 ∧ j + kij.2 < colsN m + aj then
          min acc (getPx m (i + kij.1 - ai) (j + kij.2 - aj))
        else acc)
      255

/-- `cv::dilate`, dually: maximum over the set kernel cells. -/
def dilateM (ker : List (List Bool)) (ai aj : Nat) (m : GMat Nat) : GMat Nat :=
  matOfFn (rowsN m) (colsN m) fun i j =>
    (kernelOffsets ker).foldl
      (fun acc kij =>
        if ai ≤ i + kij.1 ∧ i + kij.1 < rowsN m + ai ∧
           aj ≤ j + kij.2 ∧ j + kij.2 < colsN m + aj then
          max acc (getPx m (i + kij.1 - ai) (j + kij.2 - aj))
        else acc)
      0

/-- `cv::morphologyEx(_, _, MORPH_OPEN, kernel)` (lines 25 and 55):
erosion followed by dilation. -/
def morphOpenM (ker : List (List Bool)) (ai aj : Nat) (m : GMat Nat) : GMat Nat :=
  dilateM ker ai aj (erodeM ker ai aj m)

/-- `cv::morphologyEx(_, _, MORPH_CLOSE, kernel)` (lines 26 and 56):
dilation followed by erosion. -/
def morphCloseM (ker : List (List Bool)) (ai aj : Nat) (m : GMat Nat) : GMat Nat :=
  erodeM ker ai aj (dilateM ker ai aj m)

/-- `cv::countNonZero(mask)` (lines 115, 116). -/
def countNonZero (m : GMat Nat) : Nat :=
  m.rows.foldl (fun acc row => acc + row.countP (fun v => v != 0)) 0

/-- `detectPotentialFire` (src/main.cpp lines 8-29): HSV fire-colour range
intersected with a bright-intensity threshold, cleaned by a 5×5 morphological
opening and closing. -/
def detectPotentialFire (frame : GMat Pix3) : Option (GMat Nat) :=
  (cvtColorBGR2HSV frame).bind fun hsv =>
  let mask1 := inRangeM (0, 50, 200) (25, 255, 255) hsv
  (cvtColorBGR2GRAY frame).bind fun gray =>
  let mask2 := thresholdBin 200 gray
  (bitwiseAndM mask1 mask2).map fun fireMask =>
  morphCloseM kernel5 2 2 (morphOpenM kernel5 2 2 fireMask)

/-- `detectSmoke` (src/main.cpp lines 32-59): if either frame is empty the
function returns the default-constructed `cv::Mat()` (line 34); otherwise the
frame-difference motion mask is intersected with a grayish HSV range and
cleaned by a 10×10 morphological opening and closing. -/
def detectSmoke (frame prevFrame : GMat Pix3) : Option (GMat Nat) :=
  if matEmpty frame || matEmpty prevFrame then some emptyMask
  else
    (cvtColorBGR2GRAY frame).bind fun gray =>
    (cvtColorBGR2GRAY prevFrame).bind fun prevGray =>
    (absdiffM gray prevGray).bind fun diff0 =>
    let diff := thresholdBin 15 diff0
    (cvtColorBGR2HSV frame).bind fun hsv =>
    let smokeColor := inRangeM (0, 0, 100) (179, 30, 200) hsv
    (bitwiseAndM diff smokeColor).map fun smokeMask =>
    morphCloseM kernel10 5 5 (morphOpenM kernel10 5 5 smokeMask)

/-- `HISTORY_SIZE` (line 5). -/
def HISTORY_SIZE : Nat := 10

/-- `fireDetectionThreshold` (line 92). -/
def fireDetectionThreshold : Int := 100

/-- `smokeDetectionThreshold` (line 93); `cv::contourArea` returns a
`double`, so the comparison is modelled over `ℚ`. -/
def smokeDetectionThreshold : ℚ := 1000

/-- `fireGrowthThreshold` (line 94). -/
def fireGrowthThreshold : Int := 50

/-- History update (lines 109-112): `push_back` the new fire mask, then
`pop_front` when the deque has grown beyond `HISTORY_SIZE`. -/
def pushHistory (hist : List (GMat Nat)) (m : GMat Nat) : List (GMat Nat) :=
  let h2 := hist ++ [m]
  if HISTORY_SIZE < h2.length then h2.tail else h2

/-- `previousFireArea` (line 116): pixel count of `frameHistory.front()`
when the deque holds more than one mask, else 0. -/
def referenceArea (hist : List (GMat Nat)) : Int :=
  if 1 < hist.length then (countNonZero (hist.headD emptyMask) : Int) else 0

/-- `significantFireGrowth` (line 117). -/
def significantFireGrowth (currentFireArea : Int) (hist : List (GMat Nat)) : Bool :=
  decide (fireGrowthThreshold < currentFireArea - referenceArea hist)

/-- The fire-qualification test of line 131:
`currentFireArea > fireDetectionThreshold && significantFireGrowth`. -/
def fireQualifies (currentFireArea : Int) (growth : Bool) : Bool :=
  decide (fireDetectionThreshold < currentFireArea) && growth

/-- The consecutive-frame counter update used for both counters
(lines 131-141): increment on success, reset to 0 on failure. -/
def streakUpdate (q : Bool) (n : Nat) : Nat := if q then n + 1 else 0

/-- The alert condition of line 144:
`consecutiveFireFrames >= 3 && consecutiveSmokeFrames >= 3`. -/
def alertCond (fire smoke : Nat) : Bool := decide (3 ≤ fire) && decide (3 ≤ smoke)

/-- `cv::contourArea(contour)` (line 124): half the absolute value of the
shoelace sum over the closed polygon, the predecessor of the first point
being the last point, exactly as the library computes it. -/
def shoelaceSum : (Int × Int) → List (Int × Int) → Int
  | _, [] => 0
  | prev, q :: rest => (prev.1 * q.2 - prev.2 * q.1) + shoelaceSum q rest

/-- `cv::contourArea` as a rational (the library returns a `double`;
integer-point polygon areas are exact multiples of 1/2). -/
def contourArea (c : List (Int × Int)) : ℚ :=
  match c.getLast? with
  | none => 0
  | some pl => |((shoelaceSum pl c : Int) : ℚ)| / 2

/-- The external collaborators the loop body calls whose output is not
determined by the repository's own code:
`cv::findContours(smokeMask, contours, RETR_EXTERNAL, CHAIN_APPROX_SIMPLE)`
(line 121, `Option`-valued because the library may reject its input),
`cv::drawContours` on the display frame (line 126) and `cv::putText`
(line 146).  The claim theorems quantify over every such collaborator. -/
structure ExtOps where
  findContoursExt : GMat Nat → Option (List (List (Int × Int)))
  drawContoursOn : GMat Pix3 → List (Int × Int) → GMat Pix3
  putTextOn : GMat Pix3 → GMat Pix3

/-- The contour loop of lines 122-128: a single pass that both computes
`significantSmoke` and draws every qualifying contour on the display frame. -/
def scanContours (E : ExtOps) (frame : GMat Pix3) (cs : List (List (Int × Int))) :
    Bool × GMat Pix3 :=
  cs.foldl
    (fun acc c =>
      if smokeDetectionThreshold < contourArea c then (true, E.drawContoursOn acc.2 c)
      else acc)
    (false, frame)

/-- The mutable state of `main`'s loop: `prevFrame` (line 90),
`frameHistory` (line 91) and the two consecutive-frame counters
(lines 95-96). -/
structure LoopState where
  prevFrame : GMat Pix3
  frameHistory : List (GMat Nat)
  consecutiveFireFrames : Nat
  consecutiveSmokeFrames : Nat
deriving DecidableEq, Repr

/-- The state at loop entry: empty `prevFrame`, empty history, zero
counters. -/
def initState : LoopState := ⟨emptyFrame, [], 0, 0⟩

/-- The outcome of one processed iteration: the successor state, whether the
alert of line 144 fired, and the frame handed to `cv::imshow` (line 155). -/
structure IterOut where
  next : LoopState
  alert : Bool
  shown : GMat Pix3
deriving DecidableEq, Repr

/-- One iteration of the `while` loop for a non-empty captured frame
(src/main.cpp lines 105-157).  `none` models an uncaught `cv::Exception`
from a library call.  Note line 157: the mat stored into `prevFrame` is the
display frame — the captured frame after contour drawing (126), alert text
(146) and alpha-blending with the fire visualization (152). -/
def processFrame (E : ExtOps) (s : LoopState) (frame : GMat Pix3) : Option IterOut :=
  (detectPotentialFire frame).bind fun potentialFire =>
  (detectSmoke frame s.prevFrame).bind fun smokeMask =>
  let hist := pushHistory s.frameHistory potentialFire
  let currentFireArea : Int := (countNonZero potentialFire : Int)
  let growth := significantFireGrowth currentFireArea hist
  (E.findContoursExt smokeMask).bind fun contours =>
  let scan := scanContours E frame contours
  let fire2 := streakUpdate (fireQualifies currentFireArea growth) s.consecutiveFireFrames
  let smoke2 := streakUpdate scan.1 s.consecutiveSmokeFrames
  let alert := alertCond fire2 smoke2
  let shown0 := if alert then E.putTextOn scan.2 else scan.2
  (cvtColorGRAY2BGR potentialFire).bind fun fireVisualization =>
  (addWeightedM shown0 fireVisualization).map fun shown =>
  ⟨⟨shown, hist, fire2, smoke2⟩, alert, shown⟩

/-- The capture loop (lines 98-160): stop cleanly on an empty frame
(end of stream, line 100), otherwise process the frame and continue;
`none` propagates a crashed iteration. -/
def runLoop (E : ExtOps) : LoopState → List (GMat Pix3) → Option LoopState
  | s, [] => some s
  | s, f :: fs =>
    if matEmpty f then some s
    else
      match processFrame E s f with
      | none => none
      | some r => runLoop E r.next fs

/-- Spec-side growth rule, transcribed from §4.3 of the specification:
`significantGrowth = (popcount(currentMask) − referenceArea) > growthThreshold`
with `referenceArea = popcount(window.oldest())` if the window holds more
than one entry, else 0. -/
def growthSpec (currentMask : GMat Nat) (window : List (GMat Nat)) : Bool :=
  decide (((countNonZero currentMask : Int) -
    (if 1 < window.length then (countNonZero (window.headD emptyMask) : Int) else 0)) > 50)

/-- A concrete 1×1 frame with pixel (100, 100, 100), used to instantiate
theorems at explicit inputs. -/
def fcex : GMat Pix3 := ⟨[[(100, 100, 100)]]⟩

/-- A concrete instantiation of the external collaborators: the contour
extractor reports no contours (which is the library's answer on the empty
mask, the only mask it is applied to in the concrete runs below) and the
renderers leave the frame unchanged (they are never invoked in those runs,
every guard being false there). -/
def extZero : ExtOps := ⟨fun _ => some [], fun f _ => f, fun f => f⟩

/-- The result of the first loop iteration on `fcex` (used as the concrete
instantiation in several witnesses). -/
def rcexOut : IterOut := (processFrame extZero initState fcex).getD ⟨initState, false, emptyFrame⟩

/-- The state after three iterations on the constant stream `fcex`. -/
def s3cex : LoopState := (runLoop extZero initState [fcex, fcex, fcex]).getD initState

/-- A 1×k all-255 mask, whose non-zero pixel count is `k`. -/
def maskOfCount (k : Nat) : GMat Nat := ⟨[List.replicate k 255]⟩

/-- A concrete non-empty 2×2 frame. -/
def fr22 : GMat Pix3 := ⟨List.replicate 2 (List.replicate 2 (100, 100, 100))⟩

/-- A concrete non-empty 3×3 frame (dimensions differ from `fr22`). -/
def fr33 : GMat Pix3 := ⟨List.replicate 3 (List.replicate 3 (50, 50, 50))⟩

/-! ### Dimension lemmas for the pixel-level operations -/

lemma matDims_pixelMap {α β : Type} (f : α → β) (m : GMat α) :
    matDims (pixelMap f m) = matDims m := by
  unfold matDims pixelMap rowsN colsN
  cases m.rows with
  | nil => simp
  | cons r t => simp

lemma matDims_zipPix {α β γ : Type} (f : α → β → γ) (a : GMat α) (b : GMat β)
    (h : matDims a = matDims b) : matDims (zipPix f a b) = matDims a := by
  have h1 : rowsN a = rowsN b := congrArg Prod.fst h
  have h2 : colsN a = colsN b := congrArg Prod.snd h
  unfold matDims rowsN colsN zipPix at *
  cases ha : a.rows with
  | nil => cases hb : b.rows with
    | nil => simp
    | cons rb tb => rw [ha, hb] at h1; simp at h1
  | cons ra ta => cases hb : b.rows with
    | nil => rw [ha, hb] at h1; simp at h1
    | cons rb tb =>
      rw [ha, hb] at h1 h2
      simp only [List.zipWith_cons_cons, List.headD_cons, List.length_cons] at *
      rw [Prod.mk.injEq]
      refine ⟨?_, ?_⟩
      · simp only [List.length_zipWith]; omega
      · simp only [List.length_zipWith]; omega

lemma matDims_matOfFn {α : Type} (h w : Nat) (f : Nat → Nat → α) :
    matDims (matOfFn h w f) = (h, if h = 0 then 0 else w) := by
  unfold matDims matOfFn rowsN colsN
  cases h with
  | zero => simp
  | succ n => simp [List.range_succ_eq_map]

lemma colsN_zero_of_rowsN_zero {α : Type} {m : GMat α} (h : rowsN m = 0) : colsN m = 0 := by
  unfold rowsN at h
  unfold colsN
  rw [List.length_eq_zero.mp h]
  rfl

lemma matDims_erodeM (ker : List (List Bool)) (ai aj : Nat) (m : GMat Nat) :
    matDims (erodeM ker ai aj m) = matDims m := by
  unfold erodeM
  rw [matDims_matOfFn]
  unfold matDims
  by_cases h : rowsN m = 0
  · rw [h, colsN_zero_of_rowsN_zero h]; simp
  · simp [h]

lemma matDims_dilateM (ker : List (List Bool)) (ai aj : Nat) (m : GMat Nat) :
    matDims (dilateM ker ai aj m) = matDims m := by
  unfold dilateM
  rw [matDims_matOfFn]
  unfold matDims
  by_cases h : rowsN m = 0
  · rw [h, colsN_zero_of_rowsN_zero h]; simp
  · simp [h]

lemma matDims_morphOpenM (ker : List (List Bool)) (ai aj : Nat) (m : GMat Nat) :
    matDims (morphOpenM ker ai aj m) = matDims m := by
  unfold morphOpenM; rw [matDims_dilateM, matDims_erodeM]

lemma matDims_morphCloseM (ker : List (List Bool)) (ai aj : Nat) (m : GMat Nat) :
    matDims (morphCloseM ker ai aj m) = matDims m := by
  unfold morphCloseM; rw [matDims_erodeM, matDims_dilateM]

lemma matDims_inRangeM (lo hi : Pix3) (m : GMat Pix3) :
    matDims (inRangeM lo hi m) = matDims m := by
  unfold inRangeM; rw [matDims_pixelMap]

lemma matDims_thresholdBin (t : Nat) (m : GMat Nat) :
    matDims (thresholdBin t m) = matDims m := by
  unfold thresholdBin; rw [matDims_pixelMap]

/-! ### Behaviour of the detectors and of one loop iteration -/

lemma detectPotentialFire_some (f : GMat Pix3) (h : matEmpty f = false) :
    ∃ m, detectPotentialFire f = some m ∧ matDims m = matDims f := by
  have d1 : matDims (inRangeM (0, 50, 200) (25, 255, 255) (pixelMap hsvOfBGR f)) = matDims f := by
    rw [matDims_inRangeM, matDims_pixelMap]
  have d2 : matDims (thresholdBin 200 (pixelMap grayOfBGR f)) = matDims f := by
    rw [matDims_thresholdBin, matDims_pixelMap]
  unfold detectPotentialFire cvtColorBGR2HSV cvtColorBGR2GRAY bitwiseAndM
  rw [h]
  simp only [Bool.false_eq_true, if_false, Option.some_bind]
  rw [d1.trans d2.symm, if_pos rfl]
  simp only [Option.some_bind, Option.map_some']
  refine ⟨_, rfl, ?_⟩
  rw [matDims_morphCloseM, matDims_morphOpenM, matDims_zipPix _ _ _ (d1.trans d2.symm), d1]

lemma processFrame_inv {E : ExtOps} {s : LoopState} {f : GMat Pix3} {r : IterOut}
    (h : processFrame E s f = some r) :
    ∃ pf sm cs vis shown,
      detectPotentialFire f = some pf ∧
      detectSmoke f s.prevFrame = some sm ∧
      E.findContoursExt sm = some cs ∧
      cvtColorGRAY2BGR pf = some vis ∧
      r.next.prevFrame = shown ∧
      r.shown = shown ∧
      r.next.frameHistory = pushHistory s.frameHistory pf ∧
      r.next.consecutiveFireFrames =
        streakUpdate (fireQualifies ((countNonZero pf : Int))
          (significantFireGrowth ((countNonZero pf : Int)) (pushHistory s.frameHistory pf)))
          s.consecutiveFireFrames ∧
      r.next.consecutiveSmokeFrames =
        streakUpdate (scanContours E f cs).1 s.consecutiveSmokeFrames ∧
      r.alert = alertCond r.next.consecutiveFireFrames r.next.consecutiveSmokeFrames := by
  unfold processFrame at h
  simp only [Option.bind_eq_some, Option.map_eq_some'] at h
  obtain ⟨pf, hpf, sm, hsm, cs, hcs, vis, hvis, shown, hshown, hr⟩ := h
  subst hr
  exact ⟨pf, sm, cs, vis, shown, hpf, hsm, hcs, hvis, rfl, rfl, rfl, rfl, rfl, rfl⟩

lemma runLoop_nil_inv {E : ExtOps} {s res : LoopState} (h : runLoop E s [] = some res) :
    res = s := by
  unfold runLoop at h
  exact (Option.some.inj h).symm

lemma runLoop_cons_inv {E : ExtOps} {s res : LoopState} {f : GMat Pix3} {fs : List (GMat Pix3)}
    (h : runLoop E s (f :: fs) = some res) :
    (matEmpty f = true ∧ res = s) ∨
    (matEmpty f = false ∧ ∃ r, processFrame E s f = some r ∧ runLoop E r.next fs = some res) := by
  unfold runLoop at h
  cases he : matEmpty f with
  | true =>
    rw [he] at h
    simp only [if_pos] at h
    exact Or.inl ⟨rfl, (Option.some.inj h).symm⟩
  | false =>
    rw [he] at h
    simp only [Bool.false_eq_true, if_false] at h
    cases hp : processFrame E s f with
    | none => rw [hp] at h; cases h
    | some r => rw [hp] at h; exact Or.inr ⟨rfl, r, rfl, h⟩

lemma processFrame_smoke_le {E : ExtOps} {s : LoopState} {f : GMat Pix3} {r : IterOut}
    (h : processFrame E s f = some r) :
    r.next.consecutiveSmokeFrames ≤ s.consecutiveSmokeFrames + 1 := by
  obtain ⟨pf, sm, cs, vis, shown, _, _, _, _, _, _, _, _, hsm2, _⟩ := processFrame_inv h
  rw [hsm2]
  unfold streakUpdate
  split <;> omega

lemma processFrame_smoke_zero {E : ExtOps} {s : LoopState} {f : GMat Pix3} {r : IterOut}
    (hprev : s.prevFrame = emptyFrame)
    (hE : ∀ cs, E.findContoursExt emptyMask = some cs → cs = [])
    (h : processFrame E s f = some r) :
    r.next.consecutiveSmokeFrames = 0 := by
  obtain ⟨pf, sm, cs, vis, shown, _, hsm, hcs, _, _, _, _, _, hsm2, _⟩ := processFrame_inv h
  rw [hprev] at hsm
  have hsmeq : sm = emptyMask := by
    unfold detectSmoke at hsm
    rw [show matEmpty emptyFrame = true from rfl, Bool.or_true] at hsm
    simp only [if_pos] at hsm
    exact (Option.some.inj hsm).symm
  have hcsnil : cs = [] := hE cs (hsmeq ▸ hcs)
  subst hcsnil
  rw [hsm2]
  rfl

lemma alertCond_smoke_lt {n m : Nat} (h : m < 3) : alertCond n m = false := by
  unfold alertCond
  have : decide (3 ≤ m) = false := by simp; omega
  rw [this, Bool.and_false]

/-! ### Claim theorems -/

/-- Claim C1: for every processed frame, the alert of line 144 is raised
exactly when both consecutive-frame counters (as just updated for this
frame) have reached the required streak length 3; it is false whenever
either counter is below 3, hence it first becomes true on the first frame
on which both counters simultaneously reach 3. -/
theorem alert_iff_streaks :
    ∀ (E : ExtOps) (s : LoopState) (f : GMat Pix3) (r : IterOut),
      processFrame E s f = some r →
      (r.alert = true ↔
        3 ≤ r.next.consecutiveFireFrames ∧ 3 ≤ r.next.consecutiveSmokeFrames) := by
  intro E s f r h
  obtain ⟨pf, sm, cs, vis, shown, _, _, _, _, _, _, _, _, _, halert⟩ := processFrame_inv h
  rw [halert]
  unfold alertCond
  simp [Bool.and_eq_true, decide_eq_true_eq]

/-- Witness for C1 at the concrete first iteration on `fcex`. -/
theorem alert_iff_streaks_w :
    rcexOut.alert = true ↔
      3 ≤ rcexOut.next.consecutiveFireFrames ∧ 3 ≤ rcexOut.next.consecutiveSmokeFrames :=
  alert_iff_streaks extZero initState fcex rcexOut rfl

/-- Claim C2: the growth evaluation of lines 115-117 computes
`currentArea` as the set-pixel count of the current fire mask,
`referenceArea` as the set-pixel count of the oldest mask of the (post-push)
history window when it holds more than one entry and 0 otherwise, and
reports growth exactly when `currentArea - referenceArea > 50`; in
particular, pushing masks of set-pixel counts 0, 10, 60, 120, 180 in order
makes the last evaluation compare `180 - 0 > 50` and report true. -/
theorem growth_evaluation :
    (∀ (currentMask : GMat Nat) (window : List (GMat Nat)),
      significantFireGrowth ((countNonZero currentMask : Int)) window
        = growthSpec currentMask window) ∧
    (∀ m0 m1 m2 m3 m4 : GMat Nat,
      countNonZero m0 = 0 → countNonZero m1 = 10 → countNonZero m2 = 60 →
      countNonZero m3 = 120 → countNonZero m4 = 180 →
      significantFireGrowth ((countNonZero m4 : Int))
        (pushHistory (pushHistory (pushHistory (pushHistory (pushHistory [] m0) m1) m2) m3) m4)
        = true) := by
  constructor
  · intro currentMask window
    rfl
  · intro m0 m1 m2 m3 m4 h0 h1 h2 h3 h4
    have hp : pushHistory (pushHistory (pushHistory (pushHistory (pushHistory [] m0) m1) m2) m3) m4
        = [m0, m1, m2, m3, m4] := by
      simp [pushHistory, HISTORY_SIZE]
    rw [hp]
    unfold significantFireGrowth referenceArea fireGrowthThreshold
    norm_num [h0, h4]

/-- Witness for C2: concrete 1×k masks with the stated pixel counts. -/
theorem growth_evaluation_w :
    significantFireGrowth ((countNonZero (maskOfCount 180) : Int))
      (pushHistory (pushHistory (pushHistory (pushHistory
        (pushHistory [] (maskOfCount 0)) (maskOfCount 10)) (maskOfCount 60))
        (maskOfCount 120)) (maskOfCount 180)) = true :=
  growth_evaluation.2 (maskOfCount 0) (maskOfCount 10) (maskOfCount 60)
    (maskOfCount 120) (maskOfCount 180)
    (by decide) (by decide) (by decide) (by decide) (by decide)

/-- Claim C3, counterexample: with the previous frame absent (the
default-constructed empty mat) and a non-empty 1×1 current frame,
`detectSmoke` returns the 0×0 empty mat (line 34), whose dimensions are not
the current frame's dimensions — the claim's "all-zero mask whose dimensions
equal the current frame's dimensions" fails at this input. -/
theorem smoke_missing_prev_dims_cex :
    detectSmoke fcex emptyFrame = some emptyMask ∧ matDims emptyMask ≠ matDims fcex := by
  exact ⟨rfl, by decide⟩

/-- Claim C3, amended: with the previous frame absent, `detectSmoke`
returns the empty 0×0 mask (`cv::Mat()`) for every current frame — no error
is signalled, but the result does not carry the current frame's
dimensions. -/
theorem smoke_missing_prev_empty :
    ∀ f : GMat Pix3, detectSmoke f emptyFrame = some emptyMask := by
  intro f
  unfold detectSmoke
  rw [show matEmpty emptyFrame = true from rfl, Bool.or_true]
  simp

/-- Claim C4: each consecutive-frame counter is incremented by exactly 1
when its condition holds and reset to exactly 0 (not decremented) when it
does not (lines 131-141); after two qualifying frames followed by one
non-qualifying frame the counter is 0; and one loop iteration updates the
fire counter with `fireQualifies` and the smoke counter with the
significant-smoke flag, each either to the predecessor plus 1 or to 0. -/
theorem streak_counters :
    (∀ n, streakUpdate true n = n + 1) ∧
    (∀ n, streakUpdate false n = 0) ∧
    (∀ n, List.foldl (fun k q => streakUpdate q k) n [true, true, false] = 0) ∧
    (∀ (E : ExtOps) (s : LoopState) (f : GMat Pix3) (r : IterOut),
      processFrame E s f = some r →
      ∃ pf sm cs,
        detectPotentialFire f = some pf ∧
        detectSmoke f s.prevFrame = some sm ∧
        E.findContoursExt sm = some cs ∧
        r.next.consecutiveFireFrames =
          streakUpdate (fireQualifies ((countNonZero pf : Int))
            (significantFireGrowth ((countNonZero pf : Int)) (pushHistory s.frameHistory pf)))
            s.consecutiveFireFrames ∧
        r.next.consecutiveSmokeFrames =
          streakUpdate (scanContours E f cs).1 s.consecutiveSmokeFrames ∧
        (r.next.consecutiveFireFrames = s.consecutiveFireFrames + 1 ∨
          r.next.consecutiveFireFrames = 0) ∧
        (r.next.consecutiveSmokeFrames = s.consecutiveSmokeFrames + 1 ∨
          r.next.consecutiveSmokeFrames = 0)) := by
  refine ⟨fun n => rfl, fun n => rfl, fun n => rfl, ?_⟩
  intro E s f r h
  obtain ⟨pf, sm, cs, vis, shown, hpf, hsm, hcs, _, _, _, _, hfire, hsmoke, _⟩ :=
    processFrame_inv h
  refine ⟨pf, sm, cs, hpf, hsm, hcs, hfire, hsmoke, ?_, ?_⟩
  · rw [hfire]; unfold streakUpdate; split
    · exact Or.inl rfl
    · exact Or.inr rfl
  · rw [hsmoke]; unfold streakUpdate; split
    · exact Or.inl rfl
    · exact Or.inr rfl

/-- Witness for C4 at the concrete first iteration on `fcex`. -/
theorem streak_counters_w :
    ∃ pf sm cs,
      detectPotentialFire fcex = some pf ∧
      detectSmoke fcex initState.prevFrame = some sm ∧
      extZero.findContoursExt sm = some cs ∧
      rcexOut.next.consecutiveFireFrames =
        streakUpdate (fireQualifies ((countNonZero pf : Int))
          (significantFireGrowth ((countNonZero pf : Int)) (pushHistory initState.frameHistory pf)))
          initState.consecutiveFireFrames ∧
      rcexOut.next.consecutiveSmokeFrames =
        streakUpdate (scanContours extZero fcex cs).1 initState.consecutiveSmokeFrames ∧
      (rcexOut.next.consecutiveFireFrames = initState.consecutiveFireFrames + 1 ∨
        rcexOut.next.consecutiveFireFrames = 0) ∧
      (rcexOut.next.consecutiveSmokeFrames = initState.consecutiveSmokeFrames + 1 ∨
        rcexOut.next.consecutiveSmokeFrames = 0) :=
  streak_counters.2.2.2 extZero initState fcex rcexOut rfl

lemma pushHistory_length_le (hist : List (GMat Nat)) (m : GMat Nat)
    (hl : hist.length ≤ HISTORY_SIZE) : (pushHistory hist m).length ≤ HISTORY_SIZE := by
  simp only [pushHistory]
  unfold HISTORY_SIZE at *
  split
  next hcond =>
    simp only [List.length_tail, List.length_append, List.length_cons, List.length_nil]
    omega
  next hcond =>
    simp only [List.length_append, List.length_cons, List.length_nil] at hcond ⊢
    omega

lemma foldl_pushHistory_le (ms : List (GMat Nat)) :
    ∀ hist : List (GMat Nat), hist.length ≤ HISTORY_SIZE →
      (ms.foldl pushHistory hist).length ≤ HISTORY_SIZE := by
  induction ms with
  | nil => intro hist h; simpa using h
  | cons m rest ih =>
    intro hist h
    simp only [List.foldl_cons]
    exact ih _ (pushHistory_length_le hist m h)

/-- Claim C5: after any sequence of pushes the history window holds at most
`HISTORY_SIZE = 10` masks; each push appends the new mask at the end; a push
below capacity evicts nothing, and a push at capacity evicts exactly the
oldest (front) element, preserving FIFO order. -/
theorem history_window :
    (∀ (hist ms : List (GMat Nat)), hist.length ≤ HISTORY_SIZE →
      (ms.foldl pushHistory hist).length ≤ HISTORY_SIZE) ∧
    (∀ ms : List (GMat Nat), (ms.foldl pushHistory []).length ≤ HISTORY_SIZE) ∧
    (∀ (hist : List (GMat Nat)) (m : GMat Nat), (pushHistory hist m).getLast? = some m) ∧
    (∀ (hist : List (GMat Nat)) (m : GMat Nat), hist.length < HISTORY_SIZE →
      pushHistory hist m = hist ++ [m]) ∧
    (∀ (hist : List (GMat Nat)) (m : GMat Nat), hist.length = HISTORY_SIZE →
      pushHistory hist m = hist.tail ++ [m]) := by
  refine ⟨fun hist ms h => foldl_pushHistory_le ms hist h,
    fun ms => foldl_pushHistory_le ms [] (by simp [HISTORY_SIZE]), ?_, ?_, ?_⟩
  · intro hist m
    simp only [pushHistory]
    split
    next hcond =>
      cases hist with
      | nil => simp [HISTORY_SIZE] at hcond
      | cons hd tl => simp
    next hcond => simp
  · intro hist m h
    simp only [pushHistory]
    rw [if_neg]
    simp only [List.length_append, List.length_cons, List.length_nil]
    unfold HISTORY_SIZE at *
    omega
  · intro hist m h
    simp only [pushHistory]
    rw [if_pos]
    · cases hist with
      | nil => simp [HISTORY_SIZE] at h
      | cons hd tl => simp
    · simp only [List.length_append, List.length_cons, List.length_nil]
      unfold HISTORY_SIZE at *
      omega

/-- Witness for C5: a 23-push sequence stays within capacity, and a push at
exactly full capacity drops the front element. -/
theorem history_window_w :
    (List.foldl pushHistory ([] : List (GMat Nat)) (List.replicate 23 emptyMask)).length
      ≤ HISTORY_SIZE ∧
    pushHistory (List.replicate HISTORY_SIZE emptyMask) (maskOfCount 1)
      = (List.replicate HISTORY_SIZE emptyMask).tail ++ [maskOfCount 1] :=
  ⟨history_window.2.1 (List.replicate 23 emptyMask),
   history_window.2.2.2.2 (List.replicate HISTORY_SIZE emptyMask) (maskOfCount 1) (by simp)⟩

lemma scanContours_any (E : ExtOps) :
    ∀ (cs : List (List (Int × Int))) (acc : Bool × GMat Pix3),
      (List.foldl
        (fun acc c =>
          if smokeDetectionThreshold < contourArea c then (true, E.drawContoursOn acc.2 c)
          else acc)
        acc cs).1 =
      (acc.1 || cs.any fun c => decide (smokeDetectionThreshold < contourArea c)) := by
  intro cs
  induction cs with
  | nil => intro acc; simp
  | cons c rest ih =>
    intro acc
    simp only [List.foldl_cons, List.any_cons]
    rw [ih]
    by_cases hc : smokeDetectionThreshold < contourArea c
    · simp [hc]
    · simp [hc]

/-- Claim C6: the contour loop of lines 122-128 reports `significantSmoke`
exactly when at least one of the retrieved contours has `cv::contourArea`
strictly above `smokeDetectionThreshold = 1000`; a region whose area equals
the threshold does not qualify.  (The restriction to external/outermost
boundaries is the literal `RETR_EXTERNAL` retrieval mode passed to
`cv::findContours` on line 121; the theorem quantifies over the contour
list that call returns.) -/
theorem significant_smoke_iff :
    ∀ (E : ExtOps) (fr : GMat Pix3) (cs : List (List (Int × Int))),
      ((scanContours E fr cs).1 = true ↔
        ∃ c ∈ cs, smokeDetectionThreshold < contourArea c) := by
  intro E fr cs
  unfold scanContours
  rw [scanContours_any]
  simp [List.any_eq_true]

/-- Claim C7, counterexample: after the first iteration on the 1×1 frame
`fcex`, the stored `prevFrame` is not the frame the source produced — line
152 alpha-blends the fire visualization into the display frame before line
157 clones it into `prevFrame` — and the difference is observable: the smoke
detector applied to the stored previous frame answers differently than it
would on the unmodified source frame. -/
theorem prev_frame_unmodified_cex :
    processFrame extZero initState fcex = some rcexOut ∧
    rcexOut.next.prevFrame ≠ fcex ∧
    detectSmoke fcex rcexOut.next.prevFrame ≠ detectSmoke fcex fcex := by
  exact ⟨rfl, by decide, by decide⟩

/-- Claim C7, amended: the previous frame supplied to the smoke detector in
the next iteration is the display frame of the current iteration (the
source frame after contour drawing, alert text and the 0.7/0.3 blend with
the fire-mask visualization, i.e. exactly the mat handed to `cv::imshow`),
which in general differs from the frame the source produced. -/
theorem prev_frame_is_shown :
    ∀ (E : ExtOps) (s : LoopState) (f : GMat Pix3) (r : IterOut),
      processFrame E s f = some r → r.next.prevFrame = r.shown := by
  intro E s f r h
  obtain ⟨pf, sm, cs, vis, shown, _, _, _, _, h5, h6, _⟩ := processFrame_inv h
  rw [h5, h6]

/-- Witness for the amended C7 at the concrete first iteration on `fcex`. -/
theorem prev_frame_is_shown_w : rcexOut.next.prevFrame = rcexOut.shown :=
  prev_frame_is_shown extZero initState fcex rcexOut rfl

/-- Claim C8, counterexample: on the empty (zero-sized) frame
`detectPotentialFire` does not return an empty mask — its first
`cv::cvtColor` call rejects the empty input (`!_src.empty()` assertion),
modelled as `none`. -/
theorem fire_empty_frame_cex : detectPotentialFire emptyFrame = none := rfl

/-- Claim C8, amended: for every non-empty frame `detectPotentialFire`
succeeds and returns a mask of the same dimensions; an empty/zero-sized
frame is rejected by the initial colour conversion (an error, not an empty
mask). -/
theorem fire_detector_total :
    ∀ f : GMat Pix3, matEmpty f = false →
      ∃ m, detectPotentialFire f = some m ∧ matDims m = matDims f := by
  intro f h
  exact detectPotentialFire_some f h

/-- Witness for the amended C8 at the concrete 1×1 frame `fcex`. -/
theorem fire_detector_total_w :
    ∃ m, detectPotentialFire fcex = some m ∧ matDims m = matDims fcex :=
  fire_detector_total fcex rfl

/-- Claim C9, counterexample: for non-empty current and previous frames of
mismatched dimensions (2×2 vs 3×3), `detectSmoke` does not return the
degraded result it returns for a missing previous frame — `cv::absdiff`
rejects the mismatched sizes and the call fails (`none`), whereas the
missing-previous-frame path returns `some` of the empty mask. -/
theorem smoke_mismatch_cex :
    detectSmoke fr22 fr33 = none ∧ detectSmoke fr22 emptyFrame = some emptyMask := by
  exact ⟨by decide, by decide⟩

/-- Claim C9, amended: mismatched frame dimensions are not treated like a
missing previous frame.  For non-empty frames whose dimensions differ (both
at least 2×2, so that neither can be taken for a scalar by the arithmetic
layer), the absolute-difference step rejects the pair and `detectSmoke`
fails with an error instead of degrading. -/
theorem smoke_mismatch_rejected :
    ∀ f p : GMat Pix3, 2 ≤ rowsN f → 2 ≤ colsN f → 2 ≤ rowsN p → 2 ≤ colsN p →
      matDims f ≠ matDims p → detectSmoke f p = none := by
  intro f p hrf hcf hrp hcp hne
  have hef : matEmpty f = false := by
    unfold matEmpty
    simp only [Bool.or_eq_false_iff, beq_eq_false_iff_ne, ne_eq]
    omega
  have hep : matEmpty p = false := by
    unfold matEmpty
    simp only [Bool.or_eq_false_iff, beq_eq_false_iff_ne, ne_eq]
    omega
  have hd1 : matDims (pixelMap grayOfBGR f) = matDims f := matDims_pixelMap _ _
  have hd2 : matDims (pixelMap grayOfBGR p) = matDims p := matDims_pixelMap _ _
  have hp1 : matDims p ≠ (1, 1) := by
    unfold matDims
    intro hh
    rw [Prod.mk.injEq] at hh
    omega
  have hf1 : matDims f ≠ (1, 1) := by
    unfold matDims
    intro hh
    rw [Prod.mk.injEq] at hh
    omega
  unfold detectSmoke cvtColorBGR2GRAY absdiffM
  rw [hef, hep]
  simp only [Bool.or_self, Bool.false_eq_true, if_false, Option.some_bind]
  rw [if_neg (by rw [hd1, hd2]; exact hne)]
  rw [if_neg (by rw [hd2]; exact hp1)]
  rw [if_neg (by rw [hd1]; exact hf1)]
  rfl

/-- Witness for the amended C9 at the concrete mismatched pair. -/
theorem smoke_mismatch_rejected_w : detectSmoke fr22 fr33 = none :=
  smoke_mismatch_rejected fr22 fr33 (by decide) (by decide) (by decide) (by decide) (by decide)

/-- Claim C10: whatever the contour extractor does on non-empty masks (it
must merely report no contours — or fail — on the empty mask, which is what
the library does), the alert is never active during the first three frames
of any stream: on the first processed frame the previous frame is absent,
so the smoke mask is the empty mat, no contour is significant and the smoke
counter is reset to 0; the counter grows by at most 1 per frame, so it
cannot reach 3 before the fourth frame. -/
theorem no_alert_first_three :
    ∀ (E : ExtOps) (f1 f2 f3 : GMat Pix3),
      (∀ cs, E.findContoursExt emptyMask = some cs → cs = []) →
      (∀ s1, runLoop E initState [f1] = some s1 →
        alertCond s1.consecutiveFireFrames s1.consecutiveSmokeFrames = false) ∧
      (∀ s2, runLoop E initState [f1, f2] = some s2 →
        alertCond s2.consecutiveFireFrames s2.consecutiveSmokeFrames = false) ∧
      (∀ s3, runLoop E initState [f1, f2, f3] = some s3 →
        alertCond s3.consecutiveFireFrames s3.consecutiveSmokeFrames = false) := by
  intro E f1 f2 f3 hE
  refine ⟨?_, ?_, ?_⟩
  · intro s1 h
    rcases runLoop_cons_inv h with ⟨_, rfl⟩ | ⟨_, r1, hr1, h1⟩
    · exact alertCond_smoke_lt (by decide)
    · have hz := processFrame_smoke_zero rfl hE hr1
      have := runLoop_nil_inv h1
      subst this
      exact alertCond_smoke_lt (by omega)
  · intro s2 h
    rcases runLoop_cons_inv h with ⟨_, rfl⟩ | ⟨_, r1, hr1, h1⟩
    · exact alertCond_smoke_lt (by decide)
    · have hz := processFrame_smoke_zero rfl hE hr1
      rcases runLoop_cons_inv h1 with ⟨_, rfl⟩ | ⟨_, r2, hr2, h2⟩
      · exact alertCond_smoke_lt (by omega)
      · have hle := processFrame_smoke_le hr2
        have := runLoop_nil_inv h2
        subst this
        exact alertCond_smoke_lt (by omega)
  · intro s3 h
    rcases runLoop_cons_inv h with ⟨_, rfl⟩ | ⟨_, r1, hr1, h1⟩
    · exact alertCond_smoke_lt (by decide)
    · have hz := processFrame_smoke_zero rfl hE hr1
      rcases runLoop_cons_inv h1 with ⟨_, rfl⟩ | ⟨_, r2, hr2, h2⟩
      · exact alertCond_smoke_lt (by omega)
      · have hle2 := processFrame_smoke_le hr2
        rcases runLoop_cons_inv h2 with ⟨_, rfl⟩ | ⟨_, r3, hr3, h3⟩
        · exact alertCond_smoke_lt (by omega)
        · have hle3 := processFrame_smoke_le hr3
          have := runLoop_nil_inv h3
          subst this
          exact alertCond_smoke_lt (by omega)

/-- Witness for C10: a concrete three-frame run. -/
theorem no_alert_first_three_w :
    alertCond s3cex.consecutiveFireFrames s3cex.consecutiveSmokeFrames = false :=
  (no_alert_first_three extZero fcex fcex fcex
    (fun _ h => (Option.some.inj h).symm)).2.2 s3cex rfl
